import Mathlib

/-!
Verification of the tishcode repository: a shallow embedding of the
path sandbox (`src/file_tools.py`), the line-indexed file tools
(`read_file_chunk`, `insert_lines`, `replace_file_chunk`), the SQLite
attempt store (`src/db.py`), the retry-gated webhook background tasks and
the webhook routing / signature check (`server.py`), together with
theorems settling the frozen claims about them.

File content is modelled as `List Char` (the bytes the tools read and
write, decoded as text); Python's `str.split("\n")` and `"\n".join` are
modelled by `pySplit` / `pyJoin`.  Line numbers are Python `int`s,
modelled as `Int`.  The filesystem and the external GitHub / LLM
collaborators are abstracted away exactly where the source delegates to
them (path resolution is modelled textually on path components, the
HMAC-SHA256 primitive is an abstract parameter whose hex rendering is
modelled concretely).
-/

deriving instance DecidableEq for Except

namespace Tishcode

/-! ### Python line splitting and joining

`pySplit` models Python `s.split("\n")` (always at least one piece;
`"".split("\n") == [""]`).  `pyJoin` models `"\n".join(pieces)`. -/

def pySplit : List Char → List (List Char)
  | [] => [[]]
  | c :: rest =>
    if c = '\n' then [] :: pySplit rest
    else
      match pySplit rest with
      | [] => [[c]]
      | l :: ls => (c :: l) :: ls

def pyJoin : List (List Char) → List Char
  | [] => []
  | [l] => l
  | l :: ls => l ++ '\n' :: pyJoin ls

theorem pySplit_ne_nil (s : List Char) : pySplit s ≠ [] := by
  induction s with
  | nil => simp [pySplit]
  | cons c rest ih =>
    simp only [pySplit]
    split
    · simp
    · cases h : pySplit rest with
      | nil => simp
      | cons l ls => simp

theorem newline_not_mem_of_mem_pySplit (s : List Char) (l : List Char)
    (hl : l ∈ pySplit s) : '\n' ∉ l := by
  induction s generalizing l with
  | nil =>
    simp [pySplit] at hl
    subst hl; simp
  | cons c rest ih =>
    simp only [pySplit] at hl
    by_cases hc : c = '\n'
    · rw [if_pos hc] at hl
      rcases List.mem_cons.mp hl with h | h
      · subst h; simp
      · exact ih l h
    · rw [if_neg hc] at hl
      cases h : pySplit rest with
      | nil => exact absurd h (pySplit_ne_nil rest)
      | cons p ps =>
        rw [h] at hl
        rcases List.mem_cons.mp hl with h1 | h1
        · subst h1
          intro hmem
          rcases List.mem_cons.mp hmem with h2 | h2
          · exact hc h2.symm
          · exact ih p (by rw [h]; exact List.mem_cons_self _ _) h2
        · exact ih l (by rw [h]; exact List.mem_cons_of_mem _ h1)

theorem pySplit_of_no_newline (s : List Char) (h : '\n' ∉ s) :
    pySplit s = [s] := by
  induction s with
  | nil => simp [pySplit]
  | cons c rest ih =>
    have hc : c ≠ '\n' := fun hc => h (hc ▸ List.mem_cons_self c rest)
    have hrest : '\n' ∉ rest := fun hm => h (List.mem_cons_of_mem c hm)
    simp only [pySplit, if_neg hc, ih hrest]

theorem pySplit_append_newline (a t : List Char) (ha : '\n' ∉ a) :
    pySplit (a ++ '\n' :: t) = a :: pySplit t := by
  induction a with
  | nil => simp [pySplit]
  | cons c rest ih =>
    have hc : c ≠ '\n' := fun hc => ha (hc ▸ List.mem_cons_self c rest)
    have hrest : '\n' ∉ rest := fun hm => ha (List.mem_cons_of_mem c hm)
    simp only [List.cons_append, pySplit, if_neg hc, List.append_eq, ih hrest]

theorem pySplit_pyJoin (ls : List (List Char)) (hne : ls ≠ [])
    (hfree : ∀ l ∈ ls, '\n' ∉ l) : pySplit (pyJoin ls) = ls := by
  induction ls with
  | nil => exact absurd rfl hne
  | cons a tail ih =>
    cases tail with
    | nil =>
      simp only [pyJoin]
      exact pySplit_of_no_newline a (hfree a (List.mem_cons_self _ _))
    | cons b rest =>
      have hstep : pyJoin (a :: b :: rest) = a ++ '\n' :: pyJoin (b :: rest) := rfl
      rw [hstep, pySplit_append_newline a _ (hfree a (List.mem_cons_self _ _))]
      rw [ih (by simp) (fun l hl => hfree l (List.mem_cons_of_mem a hl))]

/-! ### PathSandbox (`_check_path` in `src/file_tools.py`)

Paths are modelled as lists of components below the filesystem root.
`resolveComps` models `pathlib.Path.resolve` textually (`.`/empty
components vanish, `..` drops the previous component, `..` at the root
stays at the root); symlinks are outside the model.  `check_path` mirrors
`_check_path`: `_base_dir` may be unset (`none`), and the containment
check is `resolved == base_resolved or base_resolved in resolved.parents`.
The function is total, mirroring the `try/except` that turns every
failure into a rejection instead of an exception. -/

def resolveComps (acc : List String) : List String → List String
  | [] => acc
  | c :: rest =>
    if c = "." ∨ c = "" then resolveComps acc rest
    else if c = ".." then resolveComps acc.dropLast rest
    else resolveComps (acc ++ [c]) rest

def check_path (base_dir : Option (List String)) (relative_path : List String) :
    Bool × List String :=
  match base_dir with
  | none => (false, [])
  | some b =>
    let base_resolved := resolveComps [] b
    let resolved := resolveComps base_resolved relative_path
    if resolved = base_resolved ∨
        (base_resolved.isPrefixOf resolved ∧ base_resolved ≠ resolved) then
      (true, resolved)
    else
      (false, base_resolved)

/-- The spec's wording of containment (§4.1 / §8): the canonical joined
path equals the canonical base, or the canonical base is one of its
ancestors (a strictly shorter prefix of its components). -/
def insideSandbox (base_resolved resolved : List String) : Prop :=
  resolved = base_resolved ∨
    (base_resolved <+: resolved ∧ base_resolved ≠ resolved)

/-! ### LineEditor tools (`src/file_tools.py`)

Each tool reads the file, splits on newlines, validates the 1-indexed
bounds and either returns an error (the tool's `"Error: ..."` string,
modelled as a `ChunkError` value carrying the data interpolated into the
message) or the new/read content. -/

inductive ChunkError where
  /-- Message "Error: Line numbers must be >= 1". -/
  | lineNumbersBelowOne : ChunkError
  /-- Message "Error: start_line must be <= end_line". -/
  | startAfterEnd : ChunkError
  /-- Message "Error: start_line S exceeds file length (T)". -/
  | startExceedsLength (start_line total_lines : Int) : ChunkError
  /-- Message "Error: after_line must be >= 0". -/
  | afterLineNegative : ChunkError
  /-- Message "Error: after_line A exceeds file length (T)". -/
  | afterLineExceedsLength (after_line total_lines : Int) : ChunkError
deriving DecidableEq

/-- The exact error string the tool returns for each `ChunkError`. -/
def ChunkError.message : ChunkError → String
  | .lineNumbersBelowOne => "Error: Line numbers must be >= 1"
  | .startAfterEnd => "Error: start_line must be <= end_line"
  | .startExceedsLength s t =>
      "Error: start_line " ++ toString s ++ " exceeds file length (" ++ toString t ++ ")"
  | .afterLineNegative => "Error: after_line must be >= 0"
  | .afterLineExceedsLength a t =>
      "Error: after_line " ++ toString a ++ " exceeds file length (" ++ toString t ++ ")"

/-- Python `content.split("\n") if content else []`: the lines of the
text to insert, empty text contributing zero lines. -/
def pyNewLines (content : List Char) : List (List Char) :=
  if content = [] then [] else pySplit content

/-- Model of `read_file_chunk` after the sandbox check and the successful read:
validates `start_line`/`end_line` and returns `"\n".join(lines[start_line-1:end_line])`. -/
def read_file_chunk (contents : List Char) (start_line end_line : Int) :
    Except ChunkError (List Char) :=
  let lines := pySplit contents
  let total_lines : Int := (lines.length : Int)
  if start_line < 1 ∨ end_line < 1 then .error .lineNumbersBelowOne
  else if start_line > end_line then .error .startAfterEnd
  else if start_line > total_lines then
    .error (.startExceedsLength start_line total_lines)
  else
    .ok (pyJoin ((lines.drop (start_line - 1).toNat).take
      (end_line - start_line + 1).toNat))

/-- Model of `insert_lines` after the sandbox check and the successful read:
splices `content` between `lines[:after_line]` and `lines[after_line:]`. -/
def insert_lines (contents : List Char) (after_line : Int) (content : List Char) :
    Except ChunkError (List Char) :=
  let lines := pySplit contents
  let total_lines : Int := (lines.length : Int)
  if after_line < 0 then .error .afterLineNegative
  else if after_line > total_lines then
    .error (.afterLineExceedsLength after_line total_lines)
  else
    .ok (pyJoin (lines.take after_line.toNat ++ pyNewLines content ++
      lines.drop after_line.toNat))

/-- Model of `replace_file_chunk` after the sandbox check and the successful read:
validates the bounds (note: no check that `end_line` is within the file)
and returns `lines[:start_line-1] ++ newLines ++ lines[end_line:]`. -/
def replace_file_chunk (contents : List Char) (start_line end_line : Int)
    (new_content : List Char) : Except ChunkError (List Char) :=
  let lines := pySplit contents
  let total_lines : Int := (lines.length : Int)
  if start_line < 1 ∨ end_line < 1 then .error .lineNumbersBelowOne
  else if start_line > end_line then .error .startAfterEnd
  else if start_line > total_lines then
    .error (.startExceedsLength start_line total_lines)
  else
    .ok (pyJoin (lines.take (start_line - 1).toNat ++ pyNewLines new_content ++
      lines.drop end_line.toNat))

/-! ### AttemptStore (`src/db.py`)

The SQLite table `pr_fix_attempts (pr_key TEXT PRIMARY KEY, attempts
INTEGER DEFAULT 0, completed INTEGER DEFAULT 0)` is modelled as an
association list from the key to `(attempts, completed)`.  `setRecord`
models the `INSERT ... ON CONFLICT(pr_key) DO UPDATE` upsert (insert or
replace in place); the two column defaults appear in the absent-row
branches of `increment_fix_attempts` and `mark_pr_completed`. -/

abbrev Db : Type := List (String × Nat × Bool)

def getRecord : Db → String → Option (Nat × Bool)
  | [], _ => none
  | (k', v) :: rest, k => if k' = k then some v else getRecord rest k

def setRecord : Db → String → Nat × Bool → Db
  | [], k, v => [(k, v)]
  | (k', v') :: rest, k, v =>
    if k' = k then (k, v) :: rest else (k', v') :: setRecord rest k v

/-- Model of `make_pr_key`. -/
def make_pr_key (owner repo : String) (pr_number : Int) : String :=
  owner ++ "/" ++ repo ++ "#" ++ toString pr_number

/-- Model of `get_fix_attempts`: `SELECT attempts ...`, `row[0] if row else 0`. -/
def get_fix_attempts (db : Db) (pr_key : String) : Nat :=
  match getRecord db pr_key with
  | none => 0
  | some (a, _) => a

/-- Model of `increment_fix_attempts`: upsert `attempts = attempts + 1` (a fresh
row gets `attempts = 1` and the column default `completed = 0`), then
`SELECT` the new count. -/
def increment_fix_attempts (db : Db) (pr_key : String) : Db × Nat :=
  match getRecord db pr_key with
  | none => (setRecord db pr_key (1, false), 1)
  | some (a, c) => (setRecord db pr_key (a + 1, c), a + 1)

/-- Model of `mark_pr_completed`: upsert `completed = 1` (a fresh row gets the
column default `attempts = 0`). -/
def mark_pr_completed (db : Db) (pr_key : String) : Db :=
  match getRecord db pr_key with
  | none => setRecord db pr_key (0, true)
  | some (a, _) => setRecord db pr_key (a, true)

/-- Model of `is_pr_completed`: `bool(row and row[0])`. -/
def is_pr_completed (db : Db) (pr_key : String) : Bool :=
  match getRecord db pr_key with
  | none => false
  | some (_, c) => c

/-! ### Background tasks (`server.py`)

`process_pr_review_submitted` and `process_check_suite_completed` are
modelled as transition functions on the store.  The PR key stands for
the parsed `(owner, repo, pr_number)`; external collaborators
(`handle_fixpr`, `setup_github_access`, `get_pull_request`,
`are_all_workflows_completed`, `handle_review`) are abstracted into the
boolean/optional parameters.  Every exception from a collaborator is
caught by the task's `try/except` and leaves the store as it was. -/

/-- Model of `process_pr_review_submitted` for one PR key: returns the new store
and whether `handle_fixpr` was invoked. -/
def process_pr_review_submitted (max_retries : Nat) (db : Db) (pr_key : String) :
    Db × Bool :=
  if is_pr_completed db pr_key then (db, false)
  else if max_retries ≤ get_fix_attempts db pr_key then
    (mark_pr_completed db pr_key, false)
  else
    ((increment_fix_attempts db pr_key).1, true)

/-- Model of `process_check_suite_completed` for one PR key.
`all_workflows_completed` is the result of the external CI query;
`review_outcome` is `some approved` when `handle_review` returns and
`none` when a collaborator raises (the exception is caught and logged,
leaving the store unchanged). -/
def process_check_suite_completed (db : Db) (pr_key : String)
    (all_workflows_completed : Bool) (review_outcome : Option Bool) : Db :=
  if is_pr_completed db pr_key then db
  else if all_workflows_completed = false then db
  else
    match review_outcome with
    | some true => mark_pr_completed db pr_key
    | _ => db

/-! ### Webhook endpoint (`server.py`)

`verify_github_signature` checks the `X-Hub-Signature-256` header
against the HMAC-SHA256 of the raw body.  The HMAC primitive itself is
an external library call and is abstracted as a parameter `hmacSha256 :
String → List Nat → List Nat` (secret, body bytes ↦ digest bytes); the
`.hexdigest()` rendering is modelled concretely by `hexBytes`, and
`hmac.compare_digest` by equality of the rendered strings.  Headers are
`List Char`; `splitOnEq` models `sig_header.split("=", 1)`, with `none`
for the `ValueError` of unpacking a string without `"="`. -/

structure HTTPException where
  status_code : Nat
  detail : String
deriving DecidableEq

/-- One lowercase hex digit, as produced by `hexdigest()`. -/
def hexChar (n : Nat) : Char :=
  match n with
  | 0 => '0' | 1 => '1' | 2 => '2' | 3 => '3' | 4 => '4'
  | 5 => '5' | 6 => '6' | 7 => '7' | 8 => '8' | 9 => '9'
  | 10 => 'a' | 11 => 'b' | 12 => 'c' | 13 => 'd' | 14 => 'e' | _ => 'f'

/-- Model of `hexdigest()`: each digest byte as two lowercase hex digits. -/
def hexBytes (digest : List Nat) : List Char :=
  (digest.map (fun b => [hexChar (b / 16 % 16), hexChar (b % 16)])).flatten

/-- Model of `sig_header.split("=", 1)`: the part before the first `'='` and the
part after it, or `none` when the header contains no `'='`. -/
def splitOnEq : List Char → Option (List Char × List Char)
  | [] => none
  | c :: rest =>
    if c = '=' then some ([], rest)
    else
      match splitOnEq rest with
      | none => none
      | some (a, b) => some (c :: a, b)

/-- Model of `verify_github_signature`: `none` means the check passed; `some e`
is the `HTTPException` raised. -/
def verify_github_signature (hmacSha256 : String → List Nat → List Nat)
    (secret : String) (body : List Nat) (sig_header : Option (List Char)) :
    Option HTTPException :=
  match sig_header with
  | none => some ⟨400, "Missing X-Hub-Signature-256"⟩
  | some h =>
    match splitOnEq h with
    | none => some ⟨400, "Bad X-Hub-Signature-256 format"⟩
    | some (algo, their_sig) =>
      if algo ≠ ("sha256").data then some ⟨400, "Unsupported signature algorithm"⟩
      else if hexBytes (hmacSha256 secret body) = their_sig then none
      else some ⟨401, "Invalid signature"⟩

/-- A `pull_requests` entry of a `check_suite` payload. -/
structure CheckSuitePR where
  number : Option Int
deriving DecidableEq

/-- The fields of the webhook JSON payload that `github_webhook` reads
(`payload.get(...)` chains; `none` models an absent key / JSON `null`). -/
structure Payload where
  action : Option String
  issue_html_url : Option String
  pull_request_html_url : Option String
  review_state : Option String
  check_suite_pull_requests : List CheckSuitePR
  repository_html_url : Option String
deriving DecidableEq

/-- The background task scheduled via `background_tasks.add_task`. -/
inductive BackgroundTask where
  | processIssueOpened (issue_url : String) : BackgroundTask
  | processPrReviewSubmitted (pr_url : String) : BackgroundTask
  | processCheckSuiteCompleted (pr_url : String) : BackgroundTask
deriving DecidableEq

/-- The JSON body returned by `github_webhook` plus the tasks it queued. -/
structure WebhookResponse where
  ok : Bool
  message : String
  tasks : List BackgroundTask
deriving DecidableEq

/-- Python `f"{x}"` of an optional string (`None` prints as `"None"`). -/
def pyShowOptStr : Option String → String
  | none => "None"
  | some s => s

/-- Python `f"{x}"` of an optional integer. -/
def pyShowOptInt : Option Int → String
  | none => "None"
  | some n => toString n

/-- The event-classification body of `github_webhook`, after signature
verification and JSON parsing succeed: the chain of `if event == ...`
blocks, each returning its JSON response and queuing at most one task. -/
def route_event (event : String) (p : Payload) : WebhookResponse :=
  if event = "ping" then ⟨true, "pong", []⟩
  else if event = "issues" ∧ p.action = some ("opened") then
    match p.issue_html_url with
    | some url => ⟨true, "Processing issue in background", [.processIssueOpened url]⟩
    | none => ⟨false, "No issue URL in payload", []⟩
  else if event = "pull_request_review" ∧ p.action = some ("submitted") then
    match p.pull_request_html_url with
    | some url =>
        ⟨true, "Processing PR fix in background", [.processPrReviewSubmitted url]⟩
    | none => ⟨false, "No PR URL in payload", []⟩
  else if event = "check_suite" ∧ p.action = some ("completed") then
    match p.check_suite_pull_requests with
    | [] => ⟨true, "No PRs in check_suite", []⟩
    | pr :: _ =>
        let pr_url := pyShowOptStr p.repository_html_url ++ "/pull/" ++
          pyShowOptInt pr.number
        ⟨true, "Processing review in background", [.processCheckSuiteCompleted pr_url]⟩
  else
    ⟨true, "Event " ++ event ++ "/" ++ pyShowOptStr p.action ++ " ignored", []⟩

/-- The observable outcome of one call to the `/webhook` endpoint. -/
inductive WebhookOutcome where
  /-- An `HTTPException` was raised (by signature verification). -/
  | httpError (e : HTTPException) : WebhookOutcome
  /-- `request.json()` failed: the body was not valid JSON. -/
  | jsonError : WebhookOutcome
  /-- A JSON response was returned (with the queued background tasks). -/
  | response (r : WebhookResponse) : WebhookOutcome
deriving DecidableEq

/-- Model of `github_webhook`: verify the signature against the raw body first,
then parse the JSON (`payload = none` models an unparseable body), then
classify the event.  -/
def github_webhook (hmacSha256 : String → List Nat → List Nat) (secret : String)
    (body : List Nat) (sig_header : Option (List Char)) (event : String)
    (payload : Option Payload) : WebhookOutcome :=
  match verify_github_signature hmacSha256 secret body sig_header with
  | some e => .httpError e
  | none =>
    match payload with
    | none => .jsonError
    | some p => .response (route_event event p)

/-! ### Store lemmas -/

theorem getRecord_setRecord_self (db : Db) (k : String) (v : Nat × Bool) :
    getRecord (setRecord db k v) k = some v := by
  induction db with
  | nil => simp [getRecord, setRecord]
  | cons hd tl ih =>
    obtain ⟨k', v'⟩ := hd
    by_cases h : k' = k
    · simp [setRecord, getRecord, h]
    · simp [setRecord, getRecord, h, ih]

theorem getRecord_setRecord_ne (db : Db) (k k' : String) (v : Nat × Bool)
    (h : k' ≠ k) : getRecord (setRecord db k v) k' = getRecord db k' := by
  induction db with
  | nil => simp [getRecord, setRecord, Ne.symm h]
  | cons hd tl ih =>
    obtain ⟨k'', v''⟩ := hd
    by_cases h2 : k'' = k
    · subst h2
      simp [setRecord, getRecord, Ne.symm h]
    · simp only [setRecord, if_neg h2, getRecord]
      by_cases h3 : k'' = k'
      · simp [h3]
      · simp [h3, ih]

theorem setRecord_setRecord (db : Db) (k : String) (v w : Nat × Bool) :
    setRecord (setRecord db k v) k w = setRecord db k w := by
  induction db with
  | nil => simp [setRecord]
  | cons hd tl ih =>
    obtain ⟨k', v'⟩ := hd
    by_cases h : k' = k
    · simp [setRecord, h]
    · simp [setRecord, h, ih]

/-- Lemma: `mark_pr_completed` never changes what `get_fix_attempts` reports,
for the marked key or any other key. -/
theorem get_fix_attempts_mark_pr_completed (db : Db) (k k' : String) :
    get_fix_attempts (mark_pr_completed db k) k' = get_fix_attempts db k' := by
  by_cases hk : k' = k
  · subst hk
    unfold mark_pr_completed get_fix_attempts
    cases h : getRecord db k' with
    | none => simp [h, getRecord_setRecord_self]
    | some p => obtain ⟨a, c⟩ := p; simp [h, getRecord_setRecord_self]
  · unfold mark_pr_completed get_fix_attempts
    cases h : getRecord db k with
    | none => simp [getRecord_setRecord_ne db k k' _ hk]
    | some p => obtain ⟨a, c⟩ := p; simp [getRecord_setRecord_ne db k k' _ hk]

/-- Lemma: `increment_fix_attempts` adds exactly one to the reported count. -/
theorem get_fix_attempts_increment (db : Db) (k : String) :
    get_fix_attempts (increment_fix_attempts db k).1 k = get_fix_attempts db k + 1 := by
  unfold increment_fix_attempts get_fix_attempts
  cases h : getRecord db k with
  | none => simp [h, getRecord_setRecord_self]
  | some p => obtain ⟨a, c⟩ := p; simp [h, getRecord_setRecord_self]

/-! ### Claim theorems: retry controller and attempt store -/

/-- The store after `n` `pull_request_review/submitted` triggers for one
PR key, starting from the empty store (the key's record absent). -/
def fix_trigger_state (max_retries : Nat) (pr_key : String) : Nat → Db
  | 0 => []
  | n + 1 =>
    (process_pr_review_submitted max_retries
      (fix_trigger_state max_retries pr_key n) pr_key).1

/-- Whether trigger `n + 1` (0-based `n`) runs `handle_fixpr`. -/
def fix_trigger_ran (max_retries : Nat) (pr_key : String) (n : Nat) : Bool :=
  (process_pr_review_submitted max_retries
    (fix_trigger_state max_retries pr_key n) pr_key).2

/-- C2: with `MAX_RETRIES = 3`, five `pull_request_review/submitted`
triggers for one PR key starting from an absent record behave as:
triggers 1–3 increment the attempt count to 1, 2, 3 and run the fix;
trigger 4 sees `attempts ≥ 3`, marks the PR completed and does not run;
trigger 5 is skipped by the completed-check (the first check, evaluated
before the retry-limit check and the increment-and-run step) and leaves
the store untouched. -/
theorem retry_controller_five_trigger_scenario (key : String) :
    (fix_trigger_ran 3 key 0 = true ∧
      get_fix_attempts (fix_trigger_state 3 key 1) key = 1) ∧
    (fix_trigger_ran 3 key 1 = true ∧
      get_fix_attempts (fix_trigger_state 3 key 2) key = 2) ∧
    (fix_trigger_ran 3 key 2 = true ∧
      get_fix_attempts (fix_trigger_state 3 key 3) key = 3 ∧
      is_pr_completed (fix_trigger_state 3 key 3) key = false) ∧
    (fix_trigger_ran 3 key 3 = false ∧
      fix_trigger_state 3 key 4 = mark_pr_completed (fix_trigger_state 3 key 3) key ∧
      get_fix_attempts (fix_trigger_state 3 key 4) key = 3 ∧
      is_pr_completed (fix_trigger_state 3 key 4) key = true) ∧
    (fix_trigger_ran 3 key 4 = false ∧
      fix_trigger_state 3 key 5 = fix_trigger_state 3 key 4) := by
  simp [fix_trigger_ran, fix_trigger_state, process_pr_review_submitted,
    is_pr_completed, get_fix_attempts, increment_fix_attempts,
    mark_pr_completed, getRecord, setRecord]

/-- C4: `mark_pr_completed` is idempotent — a second call leaves the
store (hence the stored attempts value) unchanged and `completed` still
true — and on a key with no record the first call lazily creates the
record with `attempts = 0` (the column default) and `completed = true`. -/
theorem mark_pr_completed_idempotent (db : Db) (k : String) :
    mark_pr_completed (mark_pr_completed db k) k = mark_pr_completed db k ∧
    is_pr_completed (mark_pr_completed db k) k = true ∧
    (getRecord db k = none → getRecord (mark_pr_completed db k) k = some (0, true)) := by
  cases h : getRecord db k with
  | none =>
    refine ⟨?_, ?_, fun _ => ?_⟩
    · unfold mark_pr_completed
      simp [h, getRecord_setRecord_self, setRecord_setRecord]
    · unfold mark_pr_completed is_pr_completed
      simp [h, getRecord_setRecord_self]
    · unfold mark_pr_completed
      simp [h, getRecord_setRecord_self]
  | some p =>
    obtain ⟨a, c⟩ := p
    refine ⟨?_, ?_, fun hnone => ?_⟩
    · unfold mark_pr_completed
      simp [h, getRecord_setRecord_self, setRecord_setRecord]
    · unfold mark_pr_completed is_pr_completed
      simp [h, getRecord_setRecord_self]
    · exact absurd hnone (by simp)

/-- C4 witness: both hypothesis-guarded parts at a concrete store. -/
theorem mark_pr_completed_idempotent_witness :
    getRecord ([] : Db) ("acme/widgets#42") = none ∧
    getRecord (mark_pr_completed ([] : Db) ("acme/widgets#42")) ("acme/widgets#42")
      = some (0, true) :=
  ⟨by decide,
   (mark_pr_completed_idempotent ([] : Db) ("acme/widgets#42")).2.2 (by decide)⟩

/-- C5: processing a `check_suite/completed` event never changes the
attempts counter (for the PR's key or any other); an approved review
marks the key completed; a non-approving review leaves the store
entirely unchanged; and the fix path (`process_pr_review_submitted`) is
the one that increments, adding exactly one when it runs. -/
theorem check_suite_completed_frame (db : Db) (pr_key k' : String)
    (all_workflows_completed : Bool) (review_outcome : Option Bool)
    (max_retries : Nat) :
    (get_fix_attempts
        (process_check_suite_completed db pr_key all_workflows_completed review_outcome)
        k' = get_fix_attempts db k') ∧
    (is_pr_completed db pr_key = false → all_workflows_completed = true →
      review_outcome = some true →
      process_check_suite_completed db pr_key all_workflows_completed review_outcome
        = mark_pr_completed db pr_key) ∧
    (review_outcome = some false →
      process_check_suite_completed db pr_key all_workflows_completed review_outcome
        = db) ∧
    ((process_pr_review_submitted max_retries db pr_key).2 = true →
      get_fix_attempts (process_pr_review_submitted max_retries db pr_key).1 pr_key
        = get_fix_attempts db pr_key + 1) := by
  refine ⟨?_, ?_, ?_, ?_⟩
  · unfold process_check_suite_completed
    split
    · rfl
    · split
      · rfl
      · cases review_outcome with
        | none => rfl
        | some b =>
          cases b with
          | false => rfl
          | true => exact get_fix_attempts_mark_pr_completed db pr_key k'
  · intro h1 h2 h3
    subst h3
    simp [process_check_suite_completed, h1, h2]
  · intro h3
    subst h3
    unfold process_check_suite_completed
    split
    · rfl
    · split
      · rfl
      · rfl
  · intro hran
    unfold process_pr_review_submitted at hran ⊢
    split at hran
    · exact absurd hran (by simp)
    · split at hran
      · exact absurd hran (by simp)
      · rw [if_neg (by assumption), if_neg (by assumption)]
        exact get_fix_attempts_increment db pr_key

/-- C5 witness: the hypothesis-guarded parts at a concrete store. -/
theorem check_suite_completed_frame_witness :
    process_check_suite_completed ([] : Db) ("o/r#1") true (some true)
        = mark_pr_completed ([] : Db) ("o/r#1") ∧
    process_check_suite_completed ([] : Db) ("o/r#1") true (some false) = ([] : Db) ∧
    get_fix_attempts (process_pr_review_submitted 3 ([] : Db) ("o/r#1")).1 ("o/r#1")
        = get_fix_attempts ([] : Db) ("o/r#1") + 1 :=
  ⟨(check_suite_completed_frame [] ("o/r#1") ("o/r#1") true (some true) 3).2.1
      (by decide) rfl rfl,
   (check_suite_completed_frame [] ("o/r#1") ("o/r#1") true (some false) 3).2.2.1 rfl,
   (check_suite_completed_frame [] ("o/r#1") ("o/r#1") true (some false) 3).2.2.2
      (by decide)⟩

/-! ### Claim theorems: path sandbox -/

theorem resolveComps_dotdot_x (b : List String) :
    resolveComps b [("..") , ("x")] = b.dropLast ++ [("x")] := rfl

/-- C1 (amended): for every base directory and relative path, the check
returns `ok = true` iff the canonical resolution of the base joined with
the relative path equals the canonical base or has it as an ancestor;
and `"../x"` is rejected whenever the canonical base is not the
filesystem root and its final component is not itself `"x"` (otherwise
the resolution lands at or inside the base and is accepted).  The check
is a total function: it returns a rejection value instead of throwing. -/
theorem check_path_inside_iff (b rel : List String) :
    ((check_path (some b) rel).1 = true ↔
      insideSandbox (resolveComps [] b) (resolveComps (resolveComps [] b) rel)) ∧
    (resolveComps [] b ≠ [] → (resolveComps [] b).getLast? ≠ some ("x") →
      (check_path (some b) [("..") , ("x")]).1 = false) := by
  have hcp : ∀ rel' : List String, check_path (some b) rel' =
      if resolveComps (resolveComps [] b) rel' = resolveComps [] b ∨
          ((resolveComps [] b).isPrefixOf (resolveComps (resolveComps [] b) rel') ∧
            resolveComps [] b ≠ resolveComps (resolveComps [] b) rel') then
        (true, resolveComps (resolveComps [] b) rel')
      else (false, resolveComps [] b) := fun _ => rfl
  constructor
  · rw [hcp rel]
    by_cases hc : resolveComps (resolveComps [] b) rel = resolveComps [] b ∨
        ((resolveComps [] b).isPrefixOf (resolveComps (resolveComps [] b) rel) ∧
          resolveComps [] b ≠ resolveComps (resolveComps [] b) rel)
    · rw [if_pos hc]
      constructor
      · intro _
        rcases hc with h | ⟨hp, hne⟩
        · exact Or.inl h
        · exact Or.inr ⟨( List.isPrefixOf_iff_prefix).mp hp, hne⟩
      · intro _; rfl
    · rw [if_neg hc]
      constructor
      · intro hfalse; exact absurd hfalse (by simp)
      · intro hin
        exfalso
        apply hc
        rcases hin with h1 | ⟨hp, hne⟩
        · exact Or.inl h1
        · exact Or.inr ⟨( List.isPrefixOf_iff_prefix).mpr hp, hne⟩
  · intro hne hx
    rcases (resolveComps [] b).eq_nil_or_concat' with hnil | ⟨l, a, hconcat⟩
    · exact absurd hnil hne
    · have hax : a ≠ ("x") := by
        intro ha
        apply hx
        rw [hconcat, ha, List.getLast?_concat]
      rw [hcp [("..") , ("x")], resolveComps_dotdot_x, hconcat, List.dropLast_concat]
      rw [if_neg ?_]
      intro hcond
      rcases hcond with heq | ⟨hp, hne2⟩
      · exact hax (by simpa using List.append_cancel_left heq.symm)
      · have hlen : (l ++ [a]).length = (l ++ [("x")]).length := by simp
        have heq2 : (l ++ [a]) = (l ++ [("x")]) :=
          (( List.isPrefixOf_iff_prefix).mp hp).eq_of_length hlen
        exact hax (by simpa using List.append_cancel_left heq2)

/-- C1 witness: a base with final component not `"x"`, where `"../x"`
is rejected and the containment iff is inhabited. -/
theorem check_path_inside_iff_witness :
    (check_path (some [("home"), ("a")]) [("..") , ("x")]).1 = false :=
  (check_path_inside_iff [("home"), ("a")] [("..") , ("x")]).2 (by decide) (by decide)

/-- C1 counterexample: the claim also asserts `relativePath = "../x"` is
always rejected, but with base directory `/home/x` the resolution of
`/home/x/../x` is `/home/x` itself — equal to the base — so the check
accepts it. -/
theorem check_path_dotdot_x_accepted :
    (check_path (some [("home"), ("x")]) [("..") , ("x")]).1 = true ∧
    resolveComps (resolveComps [] [("home"), ("x")]) [("..") , ("x")]
      = resolveComps [] [("home"), ("x")] := by decide

/-! ### Claim theorems: line-indexed file tools -/

theorem newline_not_mem_of_mem_pyNewLines (content l : List Char)
    (hl : l ∈ pyNewLines content) : '\n' ∉ l := by
  unfold pyNewLines at hl
  split at hl
  · simp at hl
  · exact newline_not_mem_of_mem_pySplit content l hl

/-- C6 (amended): with `1 ≤ start ≤ end` and `start` within the file,
reading with `end` beyond the last line returns exactly the same result
as reading with `end` equal to the last line (silent tail clamp); with
`start` beyond the file the read fails with the start-exceeds-length
error (so when both `start` and `end` are beyond the file, the original
call and the clamped call both fail, but with different errors); bounds
below 1, or `start > end`, also fail. -/
theorem read_file_chunk_tail_clamp (contents : List Char) (s e : Int)
    (h1 : 1 ≤ s) (h2 : s ≤ e) :
    (s ≤ ((pySplit contents).length : Int) → ((pySplit contents).length : Int) < e →
      read_file_chunk contents s e
        = read_file_chunk contents s ((pySplit contents).length : Int)) ∧
    (((pySplit contents).length : Int) < s →
      read_file_chunk contents s e
        = .error (.startExceedsLength s ((pySplit contents).length : Int))) ∧
    (∀ s' e' : Int, s' < 1 ∨ e' < 1 →
      read_file_chunk contents s' e' = .error .lineNumbersBelowOne) ∧
    (∀ s' e' : Int, 1 ≤ s' → 1 ≤ e' → e' < s' →
      read_file_chunk contents s' e' = .error .startAfterEnd) := by
  have htot : 0 < (pySplit contents).length :=
    List.length_pos.mpr (pySplit_ne_nil contents)
  refine ⟨?_, ?_, ?_, ?_⟩
  · intro hs he
    simp only [read_file_chunk]
    rw [if_neg (by omega), if_neg (by omega), if_neg (by omega),
      if_neg (by omega), if_neg (by omega), if_neg (by omega)]
    have hlen : ((pySplit contents).drop (s - 1).toNat).length
        = (pySplit contents).length - (s - 1).toNat := List.length_drop _ _
    rw [List.take_of_length_le (by omega), List.take_of_length_le (by omega)]
  · intro hs
    simp only [read_file_chunk]
    rw [if_neg (by omega), if_neg (by omega), if_pos (by omega)]
  · intro s' e' h
    simp only [read_file_chunk]
    rw [if_pos h]
  · intro s' e' hs' he' hlt
    simp only [read_file_chunk]
    rw [if_neg (by omega), if_pos (by omega)]

/-- C6 witness: on `"a\nb"` (2 lines), the clamp equality with
`end = 5`, the start-beyond-EOF error, and the two other errors. -/
theorem read_file_chunk_tail_clamp_witness :
    read_file_chunk ['a', '\n', 'b'] 1 5
      = read_file_chunk ['a', '\n', 'b'] 1 ((pySplit ['a', '\n', 'b']).length : Int) ∧
    read_file_chunk ['a', '\n', 'b'] 7 9
      = .error (.startExceedsLength 7 ((pySplit ['a', '\n', 'b']).length : Int)) ∧
    read_file_chunk ['a', '\n', 'b'] 0 2 = .error .lineNumbersBelowOne ∧
    read_file_chunk ['a', '\n', 'b'] 3 2 = .error .startAfterEnd :=
  ⟨(read_file_chunk_tail_clamp ['a', '\n', 'b'] 1 5 (by decide) (by decide)).1
      (by decide) (by decide),
   (read_file_chunk_tail_clamp ['a', '\n', 'b'] 7 9 (by decide) (by decide)).2.1
      (by decide),
   (read_file_chunk_tail_clamp ['a', '\n', 'b'] 1 1 (by decide) (by decide)).2.2.1
      0 2 (by decide),
   (read_file_chunk_tail_clamp ['a', '\n', 'b'] 1 1 (by decide) (by decide)).2.2.2
      3 2 (by decide) (by decide) (by decide)⟩

/-- C6 counterexample: the claim's "exactly the same result" fails when
`start` is also beyond the file: on the 1-line file `"a"`,
`read_file_chunk 2 3` reports that `start_line` exceeds the file length
while the clamped `read_file_chunk 2 1` reports `start_line > end_line`
— two different rejection values (and different error strings). -/
theorem read_file_chunk_tail_clamp_counterexample :
    read_file_chunk ['a'] 2 3 = .error (.startExceedsLength 2 1) ∧
    read_file_chunk ['a'] 2 1 = .error .startAfterEnd ∧
    read_file_chunk ['a'] 2 3 ≠ read_file_chunk ['a'] 2 1 ∧
    (ChunkError.startExceedsLength 2 1).message ≠ ChunkError.startAfterEnd.message := by
  refine ⟨by decide, by decide, by decide, by decide⟩

/-- C7 (amended): `insert_lines` with `after_line = 0` prepends the new
text's lines as the new first line(s); for every valid `after_line`
(`0 ≤ after_line ≤ line count`) the original lines form a — not
necessarily contiguous — subsequence of the result (no existing line is
removed or reordered); `after_line` beyond the line count fails. -/
theorem insert_lines_preserves_lines (contents content : List Char) (after_line : Int) :
    (∃ r, insert_lines contents 0 content = .ok r ∧
      pySplit r = pyNewLines content ++ pySplit contents) ∧
    (0 ≤ after_line → after_line ≤ ((pySplit contents).length : Int) →
      ∃ r, insert_lines contents after_line content = .ok r ∧
        pySplit r = (pySplit contents).take after_line.toNat ++ pyNewLines content ++
          (pySplit contents).drop after_line.toNat ∧
        (pySplit contents).Sublist (pySplit r)) ∧
    (((pySplit contents).length : Int) < after_line →
      insert_lines contents after_line content
        = .error (.afterLineExceedsLength after_line ((pySplit contents).length : Int))) := by
  have htot : 0 < (pySplit contents).length :=
    List.length_pos.mpr (pySplit_ne_nil contents)
  have hsplice : ∀ a : Int, 0 ≤ a → a ≤ ((pySplit contents).length : Int) →
      insert_lines contents a content
        = .ok (pyJoin ((pySplit contents).take a.toNat ++ pyNewLines content ++
            (pySplit contents).drop a.toNat)) := by
    intro a ha0 hale
    simp only [insert_lines]
    rw [if_neg (by omega), if_neg (by omega)]
  have hparts : ∀ a : Int,
      pySplit (pyJoin ((pySplit contents).take a.toNat ++ pyNewLines content ++
          (pySplit contents).drop a.toNat))
        = (pySplit contents).take a.toNat ++ pyNewLines content ++
          (pySplit contents).drop a.toNat := by
    intro a
    apply pySplit_pyJoin
    · intro hnil
      rcases List.append_eq_nil.mp hnil with ⟨h12, h3⟩
      rcases List.append_eq_nil.mp h12 with ⟨h1, _⟩
      have hid := List.take_append_drop a.toNat (pySplit contents)
      rw [h1, h3] at hid
      exact pySplit_ne_nil contents (by simpa using hid.symm)
    · intro l hl
      rcases List.mem_append.mp hl with hl2 | hdrop
      · rcases List.mem_append.mp hl2 with htake | hnew
        · exact newline_not_mem_of_mem_pySplit contents l (List.mem_of_mem_take htake)
        · exact newline_not_mem_of_mem_pyNewLines content l hnew
      · exact newline_not_mem_of_mem_pySplit contents l (List.mem_of_mem_drop hdrop)
  refine ⟨?_, ?_, ?_⟩
  · refine ⟨_, hsplice 0 (by omega) (by omega), ?_⟩
    rw [hparts 0]
    simp
  · intro ha0 hale
    refine ⟨_, hsplice after_line ha0 hale, hparts after_line, ?_⟩
    rw [hparts after_line]
    have hid := List.take_append_drop after_line.toNat (pySplit contents)
    have hsub : List.Sublist
        ((pySplit contents).take after_line.toNat ++
          (pySplit contents).drop after_line.toNat)
        ((pySplit contents).take after_line.toNat ++ (pyNewLines content ++
          (pySplit contents).drop after_line.toNat)) :=
      (List.sublist_append_right _ _).append_left _
    rw [← List.append_assoc] at hsub
    rw [hid] at hsub
    exact hsub
  · intro ha
    simp only [insert_lines]
    rw [if_neg (by omega), if_pos (by omega)]

/-- C7 witness: inserting `"x"` after line 1 of `"a"` keeps the original
line as a subsequence, and `after_line = 5` on a 1-line file fails. -/
theorem insert_lines_preserves_lines_witness :
    (∃ r, insert_lines ['a'] 1 ['x'] = .ok r ∧
      pySplit r = (pySplit ['a']).take (1 : Int).toNat ++ pyNewLines ['x'] ++
        (pySplit ['a']).drop (1 : Int).toNat ∧
      (pySplit ['a']).Sublist (pySplit r)) ∧
    insert_lines ['a'] 5 ['x']
      = .error (.afterLineExceedsLength 5 ((pySplit ['a']).length : Int)) :=
  ⟨(insert_lines_preserves_lines ['a'] ['x'] 1).2.1 (by decide) (by decide),
   (insert_lines_preserves_lines ['a'] ['x'] 5).2.2 (by decide)⟩

/-- C7 counterexample: the original lines are not a *contiguous*
subsequence of the result in general — inserting `"x"` after line 1 of
`"a\nb"` yields lines `["a","x","b"]`, and `["a","b"]` is not an infix
of that list. -/
theorem insert_lines_not_contiguous_counterexample :
    insert_lines ['a', '\n', 'b'] 1 ['x'] = .ok ['a', '\n', 'x', '\n', 'b'] ∧
    ¬ (pySplit ['a', '\n', 'b']) <:+: (pySplit ['a', '\n', 'x', '\n', 'b']) := by
  refine ⟨by decide, by decide⟩

/-- C8 (amended): `replace_file_chunk` is strict only at the head, like
`read_file_chunk`: `start` beyond the file fails with the
start-exceeds-length error, but `end` beyond the file is *not* checked —
it is silently clamped, behaving exactly like `end` equal to the last
line (the deletion runs through the end of the file). -/
theorem replace_file_chunk_validation (contents new_content : List Char) (s e : Int)
    (h1 : 1 ≤ s) (h2 : s ≤ e) :
    (s ≤ ((pySplit contents).length : Int) → ((pySplit contents).length : Int) < e →
      replace_file_chunk contents s e new_content
        = replace_file_chunk contents s ((pySplit contents).length : Int) new_content) ∧
    (((pySplit contents).length : Int) < s →
      replace_file_chunk contents s e new_content
        = .error (.startExceedsLength s ((pySplit contents).length : Int))) := by
  have htot : 0 < (pySplit contents).length :=
    List.length_pos.mpr (pySplit_ne_nil contents)
  refine ⟨?_, ?_⟩
  · intro hs he
    simp only [replace_file_chunk]
    rw [if_neg (by omega), if_neg (by omega), if_neg (by omega),
      if_neg (by omega), if_neg (by omega), if_neg (by omega)]
    rw [List.drop_eq_nil_of_le (by omega), List.drop_eq_nil_of_le (by omega)]
  · intro hs
    simp only [replace_file_chunk]
    rw [if_neg (by omega), if_neg (by omega), if_pos (by omega)]

/-- C8 witness: on the 2-line file `"a\nb"`, replacing `1..5` equals
replacing `1..2`, and `start = 7` fails. -/
theorem replace_file_chunk_validation_witness :
    replace_file_chunk ['a', '\n', 'b'] 1 5 ['x']
      = replace_file_chunk ['a', '\n', 'b'] 1
          ((pySplit ['a', '\n', 'b']).length : Int) ['x'] ∧
    replace_file_chunk ['a', '\n', 'b'] 7 9 ['x']
      = .error (.startExceedsLength 7 ((pySplit ['a', '\n', 'b']).length : Int)) :=
  ⟨(replace_file_chunk_validation ['a', '\n', 'b'] ['x'] 1 5 (by decide) (by decide)).1
      (by decide) (by decide),
   (replace_file_chunk_validation ['a', '\n', 'b'] ['x'] 7 9 (by decide) (by decide)).2
      (by decide)⟩

/-- C8 counterexample: the claim says `end` beyond the file must fail
with an `InvalidRange` error, but on the 2-line file `"a\nb"`,
`replace_file_chunk` with `end = 5` succeeds, silently clamping the
deletion to the end of the file. -/
theorem replace_file_chunk_no_tail_check_counterexample :
    replace_file_chunk ['a', '\n', 'b'] 1 5 ['x'] = .ok ['x'] := by decide

/-- C9 (amended): for an in-bounds range that leaves at least one line
(`start > 1` or `end < line count`), replacing with empty text removes
exactly `end - start + 1` lines and inserts none, so the resulting line
count is the original minus `end - start + 1`.  (When the range covers
every line the written content is the empty string, which by the code's
own split convention re-reads as a single empty line, not zero lines.) -/
theorem replace_file_chunk_empty_removes (contents : List Char) (s e : Int)
    (h1 : 1 ≤ s) (h2 : s ≤ e) (h3 : e ≤ ((pySplit contents).length : Int))
    (h4 : 1 < s ∨ e < ((pySplit contents).length : Int)) :
    ∃ r, replace_file_chunk contents s e [] = .ok r ∧
      pySplit r = (pySplit contents).take (s - 1).toNat ++
        (pySplit contents).drop e.toNat ∧
      ((pySplit r).length : Int) = ((pySplit contents).length : Int) - (e - s + 1) := by
  have htot : 0 < (pySplit contents).length :=
    List.length_pos.mpr (pySplit_ne_nil contents)
  have hnew : pyNewLines [] = [] := rfl
  have hok : replace_file_chunk contents s e []
      = .ok (pyJoin ((pySplit contents).take (s - 1).toNat ++
          (pySplit contents).drop e.toNat)) := by
    simp only [replace_file_chunk]
    rw [if_neg (by omega), if_neg (by omega), if_neg (by omega), hnew,
      List.append_nil]
  have htake : ((pySplit contents).take (s - 1).toNat).length = (s - 1).toNat := by
    rw [List.length_take]
    omega
  have hdrop : ((pySplit contents).drop e.toNat).length
      = (pySplit contents).length - e.toNat := List.length_drop _ _
  have hne : (pySplit contents).take (s - 1).toNat ++
      (pySplit contents).drop e.toNat ≠ [] := by
    intro hnil
    rcases List.append_eq_nil.mp hnil with ⟨ha, hb⟩
    have h5 := congrArg List.length ha
    have h6 := congrArg List.length hb
    rw [htake] at h5
    rw [hdrop] at h6
    simp at h5 h6
    omega
  have hsplit : pySplit (pyJoin ((pySplit contents).take (s - 1).toNat ++
      (pySplit contents).drop e.toNat))
      = (pySplit contents).take (s - 1).toNat ++ (pySplit contents).drop e.toNat := by
    apply pySplit_pyJoin _ hne
    intro l hl
    rcases List.mem_append.mp hl with h5 | h5
    · exact newline_not_mem_of_mem_pySplit contents l (List.mem_of_mem_take h5)
    · exact newline_not_mem_of_mem_pySplit contents l (List.mem_of_mem_drop h5)
  refine ⟨_, hok, hsplit, ?_⟩
  rw [hsplit, List.length_append, htake, hdrop]
  omega

/-- C9 witness: replacing line 2 of `"a\nb"` with empty text leaves the
1-line file `"a"`. -/
theorem replace_file_chunk_empty_removes_witness :
    ∃ r, replace_file_chunk ['a', '\n', 'b'] 2 2 [] = .ok r ∧
      pySplit r = (pySplit ['a', '\n', 'b']).take ((2 : Int) - 1).toNat ++
        (pySplit ['a', '\n', 'b']).drop (2 : Int).toNat ∧
      ((pySplit r).length : Int) = ((pySplit ['a', '\n', 'b']).length : Int) - (2 - 2 + 1) :=
  replace_file_chunk_empty_removes ['a', '\n', 'b'] 2 2 (by decide) (by decide)
    (by decide) (by decide)

/-- C9 counterexample: when the range covers every line, the "line count
drops by `end - start + 1`" arithmetic fails — replacing both lines of
`"a\nb"` with empty text writes the empty string, whose line count under
the code's split convention is 1, not `2 - 2 = 0`. -/
theorem replace_file_chunk_empty_all_lines_counterexample :
    replace_file_chunk ['a', '\n', 'b'] 1 2 [] = .ok [] ∧
    ((pySplit ([] : List Char)).length : Int)
      ≠ ((pySplit ['a', '\n', 'b']).length : Int) - (2 - 1 + 1) := by
  refine ⟨by decide, by decide⟩

/-! ### Claim theorems: webhook signature check and routing -/

theorem hexChar_ne_eq_sign (n : Nat) : hexChar n ≠ '=' := by
  unfold hexChar
  split <;> decide

theorem eq_sign_not_mem_hexBytes (digest : List Nat) : '=' ∉ hexBytes digest := by
  intro hmem
  unfold hexBytes at hmem
  rcases List.mem_flatten.mp hmem with ⟨pair, hpair, hin⟩
  rcases List.mem_map.mp hpair with ⟨bte, _, hb⟩
  subst hb
  rcases List.mem_cons.mp hin with h1 | h1
  · exact hexChar_ne_eq_sign _ h1.symm
  · rcases List.mem_cons.mp h1 with h2 | h2
    · exact hexChar_ne_eq_sign _ h2.symm
    · simp at h2

theorem splitOnEq_eq_some (h a b : List Char) (hs : splitOnEq h = some (a, b)) :
    h = a ++ '=' :: b := by
  induction h generalizing a b with
  | nil => simp [splitOnEq] at hs
  | cons c rest ih =>
    simp only [splitOnEq] at hs
    by_cases hc : c = '='
    · rw [if_pos hc] at hs
      obtain ⟨ha, hb⟩ := Prod.mk.injEq .. ▸ Option.some.inj hs
      subst hc; subst ha; subst hb
      rfl
    · rw [if_neg hc] at hs
      cases hsp : splitOnEq rest with
      | none => rw [hsp] at hs; simp at hs
      | some p =>
        obtain ⟨a', b'⟩ := p
        rw [hsp] at hs
        obtain ⟨ha, hb⟩ := Prod.mk.injEq .. ▸ Option.some.inj hs
        subst hb
        rw [← ha, List.cons_append]
        rw [ih a' b' hsp]

theorem splitOnEq_append (a b : List Char) (ha : '=' ∉ a) :
    splitOnEq (a ++ '=' :: b) = some (a, b) := by
  induction a with
  | nil => simp [splitOnEq]
  | cons c rest ih =>
    have hc : c ≠ '=' := fun hc => ha (hc ▸ List.mem_cons_self c rest)
    have hrest : '=' ∉ rest := fun hm => ha (List.mem_cons_of_mem c hm)
    simp only [List.cons_append, splitOnEq, if_neg hc, List.append_eq, ih hrest]

theorem splitOnEq_eq_none (h : List Char) (hnm : '=' ∉ h) : splitOnEq h = none := by
  induction h with
  | nil => rfl
  | cons c rest ih =>
    have hc : c ≠ '=' := fun hc => hnm (hc ▸ List.mem_cons_self c rest)
    have hrest : '=' ∉ rest := fun hm => hnm (List.mem_cons_of_mem c hm)
    simp only [splitOnEq, if_neg hc, ih hrest]

/-- C3: the signature check rejects a missing header with a 400, a
header without `'='` with a 400, a wrong algorithm part with a 400, and
a wrong hex digest with a 401; it accepts exactly the canonical header
`"sha256=" ++ hexdigest(HMAC-SHA256(secret, body))` — so any header
differing from it (in particular in a single character) is rejected —
and a rejected request is answered identically whatever the JSON body
parses to (in particular an unparseable body): the check runs before any
JSON parsing. -/
theorem webhook_signature_check (hmacSha256 : String → List Nat → List Nat)
    (secret : String) (body : List Nat) (h a b : List Char)
    (event : String) (payload : Option Payload) :
    (verify_github_signature hmacSha256 secret body none
      = some ⟨400, "Missing X-Hub-Signature-256"⟩) ∧
    ('=' ∉ h → verify_github_signature hmacSha256 secret body (some h)
      = some ⟨400, "Bad X-Hub-Signature-256 format"⟩) ∧
    ('=' ∉ a → a ≠ ("sha256").data →
      verify_github_signature hmacSha256 secret body (some (a ++ '=' :: b))
        = some ⟨400, "Unsupported signature algorithm"⟩) ∧
    (b ≠ hexBytes (hmacSha256 secret body) →
      verify_github_signature hmacSha256 secret body
        (some (("sha256").data ++ '=' :: b))
        = some ⟨401, "Invalid signature"⟩) ∧
    (verify_github_signature hmacSha256 secret body (some h) = none ↔
      h = ("sha256").data ++ '=' :: hexBytes (hmacSha256 secret body)) ∧
    (h ≠ ("sha256").data ++ '=' :: hexBytes (hmacSha256 secret body) →
      ∃ exc, verify_github_signature hmacSha256 secret body (some h) = some exc) ∧
    (∀ sig exc, verify_github_signature hmacSha256 secret body sig = some exc →
      github_webhook hmacSha256 secret body sig event payload = .httpError exc) := by
  have hsha : '=' ∉ ("sha256").data := by decide
  have hiff : verify_github_signature hmacSha256 secret body (some h) = none ↔
      h = ("sha256").data ++ '=' :: hexBytes (hmacSha256 secret body) := by
    constructor
    · intro hv
      cases hsp : splitOnEq h with
      | none => simp [verify_github_signature, hsp] at hv
      | some p =>
        obtain ⟨al, their⟩ := p
        simp only [verify_github_signature, hsp] at hv
        by_cases hal : al ≠ ("sha256").data
        · rw [if_pos hal] at hv; simp at hv
        · rw [if_neg hal] at hv
          push_neg at hal
          by_cases hd : hexBytes (hmacSha256 secret body) = their
          · rw [splitOnEq_eq_some h al their hsp, hal, hd]
          · rw [if_neg hd] at hv; simp at hv
    · intro hh
      subst hh
      simp only [verify_github_signature,
        splitOnEq_append (("sha256").data) (hexBytes (hmacSha256 secret body)) hsha]
      simp
  refine ⟨rfl, ?_, ?_, ?_, hiff, ?_, ?_⟩
  · intro hnm
    simp only [verify_github_signature, splitOnEq_eq_none h hnm]
  · intro hnm hne
    simp only [verify_github_signature, splitOnEq_append a b hnm]
    rw [if_pos hne]
  · intro hne
    simp only [verify_github_signature, splitOnEq_append (("sha256").data) b hsha]
    rw [if_neg (by simp), if_neg (fun hd => hne hd.symm)]
  · intro hne
    cases hv : verify_github_signature hmacSha256 secret body (some h) with
    | none => exact absurd (hiff.mp hv) hne
    | some exc => exact ⟨exc, rfl⟩
  · intro sig exc hv
    simp only [github_webhook, hv]

/-- C3 witness: all the hypothesis-guarded rejections at a concrete
digest function, secret, body and headers. -/
theorem webhook_signature_check_witness :
    (verify_github_signature (fun _ _ => [0]) ("s3cret") [123, 125]
      (some ['a', 'b']) = some ⟨400, "Bad X-Hub-Signature-256 format"⟩) ∧
    (verify_github_signature (fun _ _ => [0]) ("s3cret") [123, 125]
      (some (("sha512").data ++ '=' :: ['0', '0']))
      = some ⟨400, "Unsupported signature algorithm"⟩) ∧
    (verify_github_signature (fun _ _ => [0]) ("s3cret") [123, 125]
      (some (("sha256").data ++ '=' :: ['f', 'f']))
      = some ⟨401, "Invalid signature"⟩) ∧
    (∃ exc, verify_github_signature (fun _ _ => [0]) ("s3cret") [123, 125]
      (some ['a', 'b']) = some exc) ∧
    (github_webhook (fun _ _ => [0]) ("s3cret") [123, 125] none ("ping")
      (some ⟨some ("opened"), none, none, none, [], none⟩)
      = .httpError ⟨400, "Missing X-Hub-Signature-256"⟩) :=
  ⟨(webhook_signature_check (fun _ _ => [0]) ("s3cret") [123, 125] ['a', 'b']
      ['a'] ['b'] ("ping") none).2.1 (by decide),
   (webhook_signature_check (fun _ _ => [0]) ("s3cret") [123, 125] ['a', 'b']
      ("sha512").data ['0', '0'] ("ping") none).2.2.1 (by decide) (by decide),
   (webhook_signature_check (fun _ _ => [0]) ("s3cret") [123, 125] ['a', 'b']
      ['a'] ['f', 'f'] ("ping") none).2.2.2.1 (by decide),
   (webhook_signature_check (fun _ _ => [0]) ("s3cret") [123, 125] ['a', 'b']
      ['a'] ['b'] ("ping") none).2.2.2.2.2.1 (by decide),
   (webhook_signature_check (fun _ _ => [0]) ("s3cret") [123, 125] ['a', 'b']
      ['a'] ['b'] ("ping")
      (some ⟨some ("opened"), none, none, none, [], none⟩)).2.2.2.2.2.2
      none ⟨400, "Missing X-Hub-Signature-256"⟩ rfl⟩

/-- C10: a `pull_request_review` event with action `submitted` and a PR
URL schedules the PR-fix background task no matter what the review's
state is — the `review_state` field is never consulted, so `dismissed`,
`commented`, `changes_requested` and `approved` reviews are handled
identically. -/
theorem review_state_not_filtered (p : Payload) (u : String)
    (hact : p.action = some ("submitted"))
    (hurl : p.pull_request_html_url = some u) :
    route_event ("pull_request_review") p
      = ⟨true, "Processing PR fix in background", [.processPrReviewSubmitted u]⟩ ∧
    (∀ s : Option String,
      route_event ("pull_request_review") { p with review_state := s }
        = route_event ("pull_request_review") p) := by
  constructor
  · unfold route_event
    rw [if_neg (by decide), if_neg (by simp), if_pos ⟨rfl, hact⟩, hurl]
  · intro s
    rfl

/-- C10 witness: a `dismissed` review is scheduled exactly like any
other state. -/
theorem review_state_not_filtered_witness :
    route_event ("pull_request_review")
      ⟨some ("submitted"), none, some ("https://github.com/acme/widgets/pull/42"),
        some ("dismissed"), [], none⟩
      = ⟨true, "Processing PR fix in background",
        [.processPrReviewSubmitted ("https://github.com/acme/widgets/pull/42")]⟩ :=
  (review_state_not_filtered
    ⟨some ("submitted"), none, some ("https://github.com/acme/widgets/pull/42"),
      some ("dismissed"), [], none⟩
    ("https://github.com/acme/widgets/pull/42") rfl rfl).1

end Tishcode
